import Mathlib

/-!
# Verification of the y4m frame-source adapter (`src/bin/y4m_source.rs`)

Shallow embedding of the `Y4MDecoder` source adapter: the capacity
estimator `total_frames`, the format resolver (subsampling family,
color matrix, color range) and the retiming decode loop of `collect`.

Machine-integer arithmetic (`usize`/`u64`) is modelled on `Nat` with an
explicit `% 2 ^ 64` where overflow matters.  The `f64` timestamp
accumulators of the decode loop are modelled on `ℚ`; the loop only adds,
divides and compares these values, and no claim under verification
depends on rounding of the binary floating-point format.

External collaborators (the `y4m` container parser, the `yuv` pixel
conversion functions, the `gifski` collector sink) are modelled at their
interface boundary exactly as the spec prescribes: frames arrive as a
list of pull results, the conversion functions are parameters returning
success or an error, and the sink accumulates the emitted frames.
-/

namespace Y4M

/-- Declared colorspace tag of the container
(the `y4m::Colorspace` enumeration; `Cother` stands for any tag outside
the set the adapter matches by name, i.e. the `_` arm of its matches). -/
inductive Colorspace where
  | Cmono | Cmono12
  | C420 | C420p10 | C420p12 | C420jpeg | C420paldv | C420mpeg2
  | C422 | C422p10 | C422p12
  | C444 | C444p10 | C444p12
  | Cother
deriving DecidableEq

/-- Chroma subsampling family (`enum Samp` in the source). -/
inductive Samp where
  | Mono | S1x1 | S2x1 | S2x2
deriving DecidableEq

/-- Color value range (`yuv::YuvRange`). -/
inductive YuvRange where
  | Full | Limited
deriving DecidableEq

/-- Color matrix standard (`yuv::YuvStandardMatrix`; the adapter itself
only ever picks `Bt601`/`Bt709`, the caller may supply any). -/
inductive YuvStandardMatrix where
  | Bt601 | Bt709 | Bt2020
deriving DecidableEq

/-- Modelled from the spec: the caller's frame-rate request
(`crate::source::Fps`, not part of the sources under verification):
an optional positive integer output rate and a playback-speed
multiplier.  `speed` is an `f32` in the program, modelled on `ℚ`. -/
structure Fps where
  fps : Option Nat
  speed : ℚ
deriving DecidableEq

/-- Modelled from the spec: the default target frame rate
(`crate::source::DEFAULT_FPS`, not part of the sources under
verification); the spec fixes it as "a fixed constant, e.g. 20". -/
def DEFAULT_FPS : Nat := 20

/-- Container metadata exposed by the external `y4m::Decoder`
(read-only to the adapter): dimensions, bytes per sample, declared
colorspace tag, raw header bytes (as text, the adapter reads them via a
lossy UTF-8 conversion) and the rational source frame rate. -/
structure DecoderInfo where
  width : Nat
  height : Nat
  bytesPerSample : Nat
  colorspace : Colorspace
  rawParams : String
  fpsNum : Nat
  fpsDen : Nat
deriving DecidableEq

/-- One successfully read source frame: the three plane byte slices
(`get_y_plane` / `get_u_plane` / `get_v_plane`; chroma planes are empty
for monochrome input). -/
structure FrameData where
  y : List Nat
  u : List Nat
  v : List Nat
deriving DecidableEq

/-- One pull result of the external decoder's blocking `read_frame`:
either a frame or a non-`EOF` error.  End of stream (`y4m::Error::EOF`)
is the end of the list. -/
inductive FrameEvent where
  | frame (f : FrameData)
  | error (e : String)
deriving DecidableEq

/-- `usize`/`u64` modulus of the 64-bit target the program runs on. -/
def USIZE : Nat := 2 ^ 64

/-- Per-tag byte weight used by the capacity estimator
(the `match self.decoder.get_colorspace()` table inside
`total_frames`). -/
def sampFactor : Colorspace → Nat
  | .Cmono => 4
  | .Cmono12 => 4
  | .C420 => 6
  | .C420p10 => 6
  | .C420p12 => 6
  | .C420jpeg => 6
  | .C420paldv => 6
  | .C420mpeg2 => 6
  | .C422 => 8
  | .C422p10 => 8
  | .C422p12 => 8
  | .C444 => 12
  | .C444p10 => 12
  | .C444p12 => 12
  | .Cother => 12

/-- Spec-side restatement of the estimator's weight table, following the
spec's words ("4 for monochrome variants, 6 for 4:2:0 family, 8 for
4:2:2 family, 12 for 4:4:4 family, 12 as a conservative default for any
unrecognized tag"), to be compared with `sampFactor` from the source. -/
def specSubsamplingFactor (c : Colorspace) : Nat :=
  match c with
  | .Cmono | .Cmono12 => 4
  | .C420 | .C420p10 | .C420p12 | .C420jpeg | .C420paldv | .C420mpeg2 => 6
  | .C422 | .C422p10 | .C422p12 => 8
  | .C444 | .C444p10 | .C444p12 => 12
  | .Cother => 12

/-- Capacity estimator (`Y4MDecoder::total_frames`):
`self.file_size.map(|file_size| file_size.saturating_sub(header_len)
/ (w * h * d * s / 4 + 6))`.  `Nat` subtraction is saturating like
`u64::saturating_sub`; the `usize` product carries an explicit
`% 2 ^ 64`; after `/ 4 + 6` the value fits `u64`, so no further
reduction is needed. -/
def total_frames (file_size : Option Nat) (d : DecoderInfo) : Option Nat :=
  file_size.map fun fs =>
    (fs - d.rawParams.length) /
      (d.width * d.height * d.bytesPerSample * sampFactor d.colorspace % USIZE / 4 + 6)

/-- Text after the first occurrence of `pat`
(`str::split_once(pat)` restricted to the part the adapter uses). -/
def splitOnceAfter (pat : List Char) : List Char → Option (List Char)
  | [] => if pat.isPrefixOf ([] : List Char) then some [] else none
  | c :: rest =>
    if pat.isPrefixOf (c :: rest) then some ((c :: rest).drop pat.length)
    else splitOnceAfter pat rest

/-- Color-range resolution from the raw header text
(`raw_params_str.split_once("COLORRANGE=").map(|(_, r)| if
r.starts_with("FULL") { Full } else { Limited })` followed by
`range.unwrap_or(YuvRange::Limited)`). -/
def resolveRange (raw : String) : YuvRange :=
  (Option.map
      (fun r => if ("FULL".toList.isPrefixOf r : Bool) then YuvRange.Full else YuvRange.Limited)
      (splitOnceAfter "COLORRANGE=".toList raw.toList)).getD YuvRange.Limited

/-- Color-matrix resolution
(`self.in_color_space.unwrap_or({ if height <= 480 && width <= 720
{ Bt601 } else { Bt709 } })`; `unwrap_or` takes its fallback eagerly,
which does not change the value). -/
def resolveMatrix (in_color_space : Option YuvStandardMatrix) (width height : Nat) :
    YuvStandardMatrix :=
  in_color_space.getD
    (if height ≤ 480 ∧ width ≤ 720 then YuvStandardMatrix.Bt601 else YuvStandardMatrix.Bt709)

/-- Subsampling-family resolution: the `match self.decoder.get_colorspace()`
inside `collect`, with the `return Err(...)` arms as `Except.error`. -/
def sampOf (c : Colorspace) (raw_params_str : String) : Except String Samp :=
  match c with
  | .Cmono => .ok .Mono
  | .Cmono12 => .error "Y4M with Cmono12 is not supported yet"
  | .C420 => .ok .S2x2
  | .C420p10 => .error "Y4M with C420p10 is not supported yet"
  | .C420p12 => .error "Y4M with C420p12 is not supported yet"
  | .C420jpeg => .ok .S2x2
  | .C420paldv => .ok .S2x2
  | .C420mpeg2 => .ok .S2x2
  | .C422 => .ok .S2x1
  | .C422p10 => .error "Y4M with C422p10 is not supported yet"
  | .C422p12 => .error "Y4M with C422p12 is not supported yet"
  | .C444 => .ok .S1x1
  | .C444p10 => .error "Y4M with C444p10 is not supported yet"
  | .C444p12 => .error "Y4M with C444p12 is not supported yet"
  | .Cother => .error ("Y4M uses unsupported color mode " ++ raw_params_str)

/-- `format!("Bad Y4M frame (using {mode})")` — the `bad_frame` helper
inside `collect`. -/
def bad_frame (mode : String) : String := "Bad Y4M frame (using " ++ mode ++ ")"

/-- Planar view handed to `yuv400_to_rgba` (`yuv::YuvGrayImage`). -/
structure YuvGrayImage where
  y_plane : List Nat
  y_stride : Nat
  width : Nat
  height : Nat

/-- Planar view handed to the three chroma conversions
(`yuv::YuvPlanarImage`). -/
structure YuvPlanarImage where
  y_plane : List Nat
  y_stride : Nat
  u_plane : List Nat
  u_stride : Nat
  v_plane : List Nat
  v_stride : Nat
  width : Nat
  height : Nat

/-- The external pixel-conversion function family (`yuv` crate).  Each
function receives the planar view, the destination stride (the
destination RGBA buffer itself is a mutable slice whose contents are
outside this model — its length cannot change), the range and the
matrix, and returns success or a conversion error. -/
structure ConvFns where
  yuv400_to_rgba : YuvGrayImage → Nat → YuvRange → YuvStandardMatrix → Except String Unit
  yuv444_to_rgba : YuvPlanarImage → Nat → YuvRange → YuvStandardMatrix → Except String Unit
  yuv422_to_rgba : YuvPlanarImage → Nat → YuvRange → YuvStandardMatrix → Except String Unit
  yuv420_to_rgba : YuvPlanarImage → Nat → YuvRange → YuvStandardMatrix → Except String Unit

/-- Everything the decode loop reads but never writes: the stream-wide
values `collect` computes before entering its loop. -/
structure CollectCtx where
  width : Nat
  height : Nat
  frameTime : ℚ
  wantedFrameTime : ℚ
  speed : ℚ
  samp : Samp
  rawParams : String
  range : YuvRange
  matrix : YuvStandardMatrix
  fns : ConvFns

/-- One frame handed to the sink (`c.add_frame_rgba(idx, pixels,
this_frame_pts)`).  `pixels` is the repacked list of 4-byte RGBA
chunks.  `srcTime` is a ghost field recording the value of the
`presentation_timestamp` accumulator when the frame was emitted; it is
not part of the sink payload. -/
structure Emitted where
  idx : Nat
  pixels : List (List Nat)
  pts : ℚ
  srcTime : ℚ
deriving DecidableEq

/-- The loop-local mutable state of `collect`: `idx`,
`presentation_timestamp` (`pts`), `wanted_pts` (`wanted`), and the
frames already handed to the sink. -/
structure LoopState where
  idx : Nat
  pts : ℚ
  wanted : ℚ
  emitted : List Emitted

/-- `chunksExact n` — `slice::chunks_exact(n)`: the list of successive
full `n`-element chunks, any remainder dropped.  `cur` accumulates the
chunk under construction. -/
def chunksExactGo (n : Nat) (cur : List α) : List α → List (List α)
  | [] => []
  | a :: rest =>
    if (cur ++ [a]).length = n then (cur ++ [a]) :: chunksExactGo n [] rest
    else chunksExactGo n (cur ++ [a]) rest

/-- `slice::chunks_exact(n)` over a byte list. -/
def chunksExact (n : Nat) (l : List α) : List (List α) := chunksExactGo n [] l

/-- The repacking step of `collect`: `rgba` is allocated as
`vec![0; width * height * 4]` (the conversion function writes pixel
values into it in place — values are outside this model, the length is
invariant), then `rgba.chunks_exact(4)` is pushed chunk by chunk into
`out`. -/
def repackOut (width height : Nat) : List (List Nat) :=
  chunksExact 4 (List.replicate (width * height * 4) 0)

/-- Dispatch to the external conversion function matching the
subsampling family, building the planar view with the stride formulas
of the source (`uv_stride = width_u32.div_ceil(2)` is `(width + 1) / 2`)
and destination stride `width * 4`. -/
def convertFrame (ctx : CollectCtx) (f : FrameData) : Except String Unit :=
  match ctx.samp with
  | .Mono =>
    ctx.fns.yuv400_to_rgba
      { y_plane := f.y, y_stride := ctx.width, width := ctx.width, height := ctx.height }
      (ctx.width * 4) ctx.range ctx.matrix
  | .S1x1 =>
    ctx.fns.yuv444_to_rgba
      { y_plane := f.y, y_stride := ctx.width, u_plane := f.u, u_stride := ctx.width,
        v_plane := f.v, v_stride := ctx.width, width := ctx.width, height := ctx.height }
      (ctx.width * 4) ctx.range ctx.matrix
  | .S2x1 =>
    ctx.fns.yuv422_to_rgba
      { y_plane := f.y, y_stride := ctx.width, u_plane := f.u, u_stride := (ctx.width + 1) / 2,
        v_plane := f.v, v_stride := (ctx.width + 1) / 2,
        width := ctx.width, height := ctx.height }
      (ctx.width * 4) ctx.range ctx.matrix
  | .S2x2 =>
    ctx.fns.yuv420_to_rgba
      { y_plane := f.y, y_stride := ctx.width, u_plane := f.u, u_stride := (ctx.width + 1) / 2,
        v_plane := f.v, v_stride := (ctx.width + 1) / 2,
        width := ctx.width, height := ctx.height }
      (ctx.width * 4) ctx.range ctx.matrix

/-- The retiming decode loop of `collect`, one constructor per pull
result of `read_frame`.  Faithful to the source's order of operations:
`this_frame_pts` is `pts / speed` before the accumulator advances; the
drop rule fires after `presentation_timestamp += frame_time` and before
`wanted_pts` advances; the empty-luma check, the conversion and the
repack length check follow; emission appends to the sink and increments
`idx`.  The pair returned is (frames handed to the sink, terminal
error if any); `Err(y4m::Error::EOF)` breaks the loop with success. -/
def collectLoop (ctx : CollectCtx) : List FrameEvent → LoopState → List Emitted × Option String
  | [], st => (st.emitted, none)
  | .error e :: _, st => (st.emitted, some e)
  | .frame f :: rest, st =>
    if st.pts + ctx.frameTime < st.wanted then
      collectLoop ctx rest { st with pts := st.pts + ctx.frameTime }
    else if f.y = [] then
      (st.emitted, some (bad_frame ctx.rawParams))
    else
      match convertFrame ctx f with
      | .error err =>
        (st.emitted, some ("Bad Y4M frame (using " ++ ctx.rawParams ++ "): " ++ err))
      | .ok _ =>
        if (repackOut ctx.width ctx.height).length ≠ ctx.width * ctx.height then
          (st.emitted, some (bad_frame ctx.rawParams))
        else
          collectLoop ctx rest
            { idx := st.idx + 1,
              pts := st.pts + ctx.frameTime,
              wanted := st.wanted + ctx.wantedFrameTime,
              emitted := st.emitted ++
                [{ idx := st.idx, pixels := repackOut ctx.width ctx.height,
                   pts := st.pts / ctx.speed, srcTime := st.pts }] }

/-- The stream-wide values `collect` computes before its loop:
`frame_time = 1.0 / (fps.num / fps.den)`,
`wanted_frame_time = 1.0 / f64::from(self.fps.fps.unwrap_or(DEFAULT_FPS))`,
the resolved range and matrix, and the raw header text. -/
def mkCtx (fns : ConvFns) (fps : Fps) (in_color_space : Option YuvStandardMatrix)
    (d : DecoderInfo) (samp : Samp) : CollectCtx :=
  { width := d.width
    height := d.height
    frameTime := 1 / ((d.fpsNum : ℚ) / (d.fpsDen : ℚ))
    wantedFrameTime := 1 / ((fps.fps.getD DEFAULT_FPS : Nat) : ℚ)
    speed := fps.speed
    samp := samp
    rawParams := d.rawParams
    range := resolveRange d.rawParams
    matrix := resolveMatrix in_color_space d.width d.height
    fns := fns }

/-- `Y4MDecoder::collect`: resolve the subsampling family (failing on
unsupported or unknown tags), check the dimension bounds
(`width == 0 || width > u16::MAX || height == 0 || height > u16::MAX`),
then run the decode loop from `idx = 0`,
`presentation_timestamp = 0.0`, `wanted_pts = 0.0`. -/
def collect (fns : ConvFns) (fps : Fps) (in_color_space : Option YuvStandardMatrix)
    (d : DecoderInfo) (frames : List FrameEvent) : List Emitted × Option String :=
  match sampOf d.colorspace d.rawParams with
  | .error e => ([], some e)
  | .ok samp =>
    if d.width = 0 ∨ 65535 < d.width ∨ d.height = 0 ∨ 65535 < d.height then
      ([], some "Video too large")
    else
      collectLoop (mkCtx fns fps in_color_space d samp) frames
        { idx := 0, pts := 0, wanted := 0, emitted := [] }

/-- Conversion functions that always succeed, for concrete runs. -/
def okConv : ConvFns :=
  { yuv400_to_rgba := fun _ _ _ _ => .ok ()
    yuv444_to_rgba := fun _ _ _ _ => .ok ()
    yuv422_to_rgba := fun _ _ _ _ => .ok ()
    yuv420_to_rgba := fun _ _ _ _ => .ok () }

/-- A concrete loop context for witnesses: 1×1 monochrome stream at
60 fps retimed to 20 fps, speed 1. -/
def ctx0 : CollectCtx :=
  { width := 1, height := 1, frameTime := 1 / 60, wantedFrameTime := 1 / 20,
    speed := 1, samp := .Mono, rawParams := "", range := .Limited,
    matrix := .Bt601, fns := okConv }

/-- A concrete non-empty 1×1 frame for witnesses. -/
def f1 : FrameData := { y := [5], u := [], v := [] }

/-- Concrete decoder metadata for the empty-luma counterexample:
1×1 monochrome at 60 fps. -/
def d7 : DecoderInfo :=
  { width := 1, height := 1, bytesPerSample := 1, colorspace := .Cmono,
    rawParams := "", fpsNum := 60, fpsDen := 1 }

end Y4M

namespace Y4M

/-- Length of the chunk accumulator run: with a partial chunk `cur`
shorter than `n`, processing `l` produces `(cur.length + l.length) / n`
full chunks. -/
theorem chunksExactGo_length {α : Type} (n : Nat) :
    ∀ (l cur : List α), cur.length < n →
      (chunksExactGo n cur l).length = (cur.length + l.length) / n := by
  intro l
  induction l with
  | nil =>
    intro cur h
    simp [chunksExactGo, Nat.div_eq_of_lt h]
  | cons a rest ih =>
    intro cur h
    have h0 : 0 < n := Nat.lt_of_le_of_lt (Nat.zero_le _) h
    by_cases hn : (cur ++ [a]).length = n
    · rw [chunksExactGo, if_pos hn]
      have hnil : ([] : List α).length < n := by simpa using h0
      simp only [List.length_cons, ih [] hnil, List.length_nil, Nat.zero_add]
      simp only [List.length_append, List.length_cons, List.length_nil] at hn
      have : cur.length + (rest.length + 1) = rest.length + n := by omega
      rw [this, Nat.add_div_right _ h0]
    · rw [chunksExactGo, if_neg hn]
      have hlt : (cur ++ [a]).length < n := by
        simp only [List.length_append, List.length_cons, List.length_nil] at hn ⊢
        omega
      rw [ih _ hlt]
      congr 1
      simp only [List.length_append, List.length_cons, List.length_nil]
      omega

/-- `chunks_exact(n)` over a list yields `⌊length / n⌋` chunks. -/
theorem chunksExact_length {α : Type} (n : Nat) (h : 0 < n) (l : List α) :
    (chunksExact n l).length = l.length / n := by
  rw [chunksExact, chunksExactGo_length n l [] (by simpa using h)]
  simp

/-- The repacked pixel container always holds exactly `width * height`
pixels. -/
theorem repackOut_length (w h : Nat) : (repackOut w h).length = w * h := by
  rw [repackOut, chunksExact_length 4 (by norm_num)]
  simp [Nat.mul_div_cancel]

/-- C10: the post-conversion pixel-count mismatch branch is
unreachable — the RGBA buffer has length exactly `width * height * 4`,
repacking it into exact 4-byte chunks yields exactly `width * height`
pixels, so the `out.len() != width * height` condition guarding the
malformed-frame error is false for every frame. -/
theorem repack_mismatch_unreachable (w h : Nat) :
    (List.replicate (w * h * 4) (0 : Nat)).length = w * h * 4
    ∧ (repackOut w h).length = w * h
    ∧ ¬((repackOut w h).length ≠ w * h) := by
  refine ⟨by simp, repackOut_length w h, ?_⟩
  simp [repackOut_length]

/-- C1: one step of the retiming loop on a successfully read frame.
The frame is dropped — no conversion, no emission, no index increment,
`wanted_pts` unchanged — exactly when, after adding the source frame
duration to `presentation_timestamp`, `presentation_timestamp <
wanted_pts`; otherwise `wanted_pts` advances by one target frame
duration and the frame is converted and emitted.  The third conjunct
records that the target frame duration is `1 / targetFrameRate` with
the caller's fps, or the default constant when absent. -/
theorem drop_rule_ok (ctx : CollectCtx) (f : FrameData) (rest : List FrameEvent)
    (st : LoopState) :
    (st.pts + ctx.frameTime < st.wanted →
      collectLoop ctx (.frame f :: rest) st
        = collectLoop ctx rest { st with pts := st.pts + ctx.frameTime })
    ∧ (¬ st.pts + ctx.frameTime < st.wanted → f.y ≠ [] → convertFrame ctx f = .ok () →
      collectLoop ctx (.frame f :: rest) st
        = collectLoop ctx rest
            { idx := st.idx + 1, pts := st.pts + ctx.frameTime,
              wanted := st.wanted + ctx.wantedFrameTime,
              emitted := st.emitted ++
                [{ idx := st.idx, pixels := repackOut ctx.width ctx.height,
                   pts := st.pts / ctx.speed, srcTime := st.pts }] })
    ∧ (∀ (fns : ConvFns) (fps : Fps) (ics : Option YuvStandardMatrix) (d : DecoderInfo)
        (samp : Samp),
      (mkCtx fns fps ics d samp).wantedFrameTime
        = 1 / ((fps.fps.getD DEFAULT_FPS : Nat) : ℚ)) := by
  refine ⟨fun h => ?_, fun h hy hconv => ?_, fun _ _ _ _ _ => rfl⟩
  · simp only [collectLoop, if_pos h]
  · have hlen : ¬((repackOut ctx.width ctx.height).length ≠ ctx.width * ctx.height) := by
      simp [repackOut_length]
    simp only [collectLoop, if_neg h, if_neg hy, hconv, if_neg hlen]

/-- Witness for C1: with a 60 fps source retimed to 20 fps, a frame
pulled at `wanted_pts = 1` is dropped, and a frame pulled at
`wanted_pts = 0` is emitted. -/
theorem drop_rule_ok_witness :
    (((0 : ℚ) + ctx0.frameTime < 1) ∧
      collectLoop ctx0 [.frame f1] { idx := 0, pts := 0, wanted := 1, emitted := [] }
        = collectLoop ctx0 [] { idx := 0, pts := 0 + ctx0.frameTime, wanted := 1, emitted := [] })
    ∧ (¬ ((0 : ℚ) + ctx0.frameTime < 0) ∧
      collectLoop ctx0 [.frame f1] { idx := 0, pts := 0, wanted := 0, emitted := [] }
        = collectLoop ctx0 []
            { idx := 1, pts := 0 + ctx0.frameTime, wanted := 0 + ctx0.wantedFrameTime,
              emitted := [{ idx := 0, pixels := repackOut ctx0.width ctx0.height,
                            pts := 0 / ctx0.speed, srcTime := 0 }] }) := by
  have h1 : (0 : ℚ) + ctx0.frameTime < 1 := by norm_num [ctx0]
  have h2 : ¬ ((0 : ℚ) + ctx0.frameTime < 0) := by norm_num [ctx0]
  have hy : f1.y ≠ [] := by simp [f1]
  exact ⟨⟨h1, (drop_rule_ok ctx0 f1 [] ⟨0, 0, 1, []⟩).1 h1⟩,
         ⟨h2, (drop_rule_ok ctx0 f1 [] ⟨0, 0, 0, []⟩).2.1 h2 hy rfl⟩⟩

/-- The indices handed to the sink from any loop state continue the
consecutive run starting at the state's `idx`. -/
theorem collectLoop_idx_aux (ctx : CollectCtx) :
    ∀ (frames : List FrameEvent) (st : LoopState), ∃ n : ℕ,
      ((collectLoop ctx frames st).1).map Emitted.idx
        = st.emitted.map Emitted.idx ++ List.range' st.idx n := by
  intro frames
  induction frames with
  | nil => exact fun st => ⟨0, by simp [collectLoop]⟩
  | cons ev rest ih =>
    intro st
    cases ev with
    | error e => exact ⟨0, by simp [collectLoop]⟩
    | frame f =>
      by_cases hd : st.pts + ctx.frameTime < st.wanted
      · obtain ⟨n, hn⟩ := ih { st with pts := st.pts + ctx.frameTime }
        exact ⟨n, by simpa only [collectLoop, if_pos hd] using hn⟩
      · by_cases hy : f.y = []
        · exact ⟨0, by simp [collectLoop, if_neg hd, hy]⟩
        · cases hconv : convertFrame ctx f with
          | error err => exact ⟨0, by simp [collectLoop, if_neg hd, hy, hconv]⟩
          | ok u =>
            have hlen : ¬((repackOut ctx.width ctx.height).length
                ≠ ctx.width * ctx.height) := by
              simp [repackOut_length]
            obtain ⟨n, hn⟩ := ih
              { idx := st.idx + 1, pts := st.pts + ctx.frameTime,
                wanted := st.wanted + ctx.wantedFrameTime,
                emitted := st.emitted ++
                  [{ idx := st.idx, pixels := repackOut ctx.width ctx.height,
                     pts := st.pts / ctx.speed, srcTime := st.pts }] }
            refine ⟨n + 1, ?_⟩
            simp only [collectLoop, if_neg hd, if_neg hy, hconv, if_neg hlen]
            rw [hn]
            simp [List.range'_succ]

/-- C3: across any run of the decode loop, the indices passed to the
sink's add-frame operation are exactly `0, 1, ..., N-1` in order, where
`N` is the number of emitted frames: `idx` starts at 0 and increments
by exactly 1 per emission, however many source frames were dropped in
between. -/
theorem indices_consecutive (ctx : CollectCtx) (frames : List FrameEvent) :
    ((collectLoop ctx frames { idx := 0, pts := 0, wanted := 0, emitted := [] }).1).map
        Emitted.idx
      = List.range
          ((collectLoop ctx frames { idx := 0, pts := 0, wanted := 0, emitted := [] }).1).length
      := by
  obtain ⟨n, hn⟩ := collectLoop_idx_aux ctx frames ⟨0, 0, 0, []⟩
  simp only [List.map_nil, List.nil_append] at hn
  have hlen : ((collectLoop ctx frames ⟨0, 0, 0, []⟩).1).length = n := by
    have := congrArg List.length hn
    simpa using this
  rw [hlen, hn, List.range_eq_range']

end Y4M

namespace Y4M

/-- Every frame the loop adds beyond the frames already emitted carries
`pts = srcTime / speed`, where the ghost `srcTime` is a whole number of
source frame durations (the accumulated source time of the previously
pulled frames). -/
theorem collectLoop_srcTime_aux (ctx : CollectCtx) :
    ∀ (frames : List FrameEvent) (st : LoopState) (k0 : ℕ),
      st.pts = (k0 : ℚ) * ctx.frameTime →
      ∀ e ∈ (collectLoop ctx frames st).1,
        e ∈ st.emitted ∨
          (e.pts = e.srcTime / ctx.speed ∧ ∃ k : ℕ, e.srcTime = (k : ℚ) * ctx.frameTime) := by
  intro frames
  induction frames with
  | nil =>
    intro st k0 hpts e he
    exact Or.inl (by simpa [collectLoop] using he)
  | cons ev rest ih =>
    intro st k0 hpts e he
    cases ev with
    | error e' => exact Or.inl (by simpa [collectLoop] using he)
    | frame f =>
      by_cases hd : st.pts + ctx.frameTime < st.wanted
      · have hk : ({ st with pts := st.pts + ctx.frameTime } : LoopState).pts
            = ((k0 + 1 : ℕ) : ℚ) * ctx.frameTime := by
          show st.pts + ctx.frameTime = _
          rw [hpts]; push_cast; ring
        exact ih _ (k0 + 1) hk e (by simpa only [collectLoop, if_pos hd] using he)
      · by_cases hy : f.y = []
        · exact Or.inl (by simpa [collectLoop, if_neg hd, hy] using he)
        · cases hconv : convertFrame ctx f with
          | error err =>
            exact Or.inl (by simpa [collectLoop, if_neg hd, hy, hconv] using he)
          | ok u =>
            have hlen : ¬((repackOut ctx.width ctx.height).length
                ≠ ctx.width * ctx.height) := by
              simp [repackOut_length]
            have he' : e ∈ (collectLoop ctx rest
                { idx := st.idx + 1, pts := st.pts + ctx.frameTime,
                  wanted := st.wanted + ctx.wantedFrameTime,
                  emitted := st.emitted ++
                    [{ idx := st.idx, pixels := repackOut ctx.width ctx.height,
                       pts := st.pts / ctx.speed, srcTime := st.pts }] }).1 := by
              simpa only [collectLoop, if_neg hd, if_neg hy, hconv, if_neg hlen] using he
            have hk : st.pts + ctx.frameTime = ((k0 + 1 : ℕ) : ℚ) * ctx.frameTime := by
              rw [hpts]; push_cast; ring
            rcases ih _ (k0 + 1) hk e he' with hmem | hgood
            · rcases List.mem_append.mp hmem with h1 | h2
              · exact Or.inl h1
              · have he2 := List.mem_singleton.mp h2
                subst he2
                exact Or.inr ⟨rfl, ⟨k0, hpts⟩⟩
            · exact Or.inr hgood

/-- With positive speed and nonnegative source frame duration, the
emitted timestamps extend any already-sorted sink content without ever
decreasing. -/
theorem collectLoop_pairwise_aux (ctx : CollectCtx) (hs : 0 < ctx.speed)
    (hf : 0 ≤ ctx.frameTime) :
    ∀ (frames : List FrameEvent) (st : LoopState),
      List.Pairwise (fun a b => a.pts ≤ b.pts) st.emitted →
      (∀ e ∈ st.emitted, e.pts ≤ st.pts / ctx.speed) →
      List.Pairwise (fun a b => a.pts ≤ b.pts) (collectLoop ctx frames st).1 := by
  intro frames
  induction frames with
  | nil =>
    intro st hpw hub
    simpa [collectLoop] using hpw
  | cons ev rest ih =>
    intro st hpw hub
    have hstep : st.pts / ctx.speed ≤ (st.pts + ctx.frameTime) / ctx.speed := by
      gcongr
      linarith
    have hmono : ∀ e ∈ st.emitted, e.pts ≤ (st.pts + ctx.frameTime) / ctx.speed :=
      fun e he => le_trans (hub e he) hstep
    cases ev with
    | error e => simpa [collectLoop] using hpw
    | frame f =>
      by_cases hd : st.pts + ctx.frameTime < st.wanted
      · simp only [collectLoop, if_pos hd]
        exact ih _ hpw hmono
      · by_cases hy : f.y = []
        · simpa [collectLoop, if_neg hd, hy] using hpw
        · cases hconv : convertFrame ctx f with
          | error err => simpa [collectLoop, if_neg hd, hy, hconv] using hpw
          | ok u =>
            have hlen : ¬((repackOut ctx.width ctx.height).length
                ≠ ctx.width * ctx.height) := by
              simp [repackOut_length]
            simp only [collectLoop, if_neg hd, if_neg hy, hconv, if_neg hlen]
            apply ih
            · rw [List.pairwise_append]
              refine ⟨hpw, List.pairwise_singleton _ _, ?_⟩
              intro a ha b hb
              have hb' := List.mem_singleton.mp hb
              subst hb'
              exact hub a ha
            · intro e he
              rcases List.mem_append.mp he with h1 | h2
              · exact hmono e h1
              · have he2 := List.mem_singleton.mp h2
                subst he2
                exact hstep

/-- Running the loop with speed 2 instead of speed 1 keeps the same
drop decisions and frame content and exactly halves every emitted
timestamp. -/
theorem collectLoop_speed_aux (ctx : CollectCtx) (hsp : ctx.speed = 1) :
    ∀ (frames : List FrameEvent) (st : LoopState),
      collectLoop { ctx with speed := 2 } frames
          { st with emitted := st.emitted.map (fun e => { e with pts := e.pts / 2 }) }
        = (((collectLoop ctx frames st).1).map (fun e => { e with pts := e.pts / 2 }),
           (collectLoop ctx frames st).2) := by
  obtain ⟨W, H, ft, wt, sp, sa, rp, rg, mx, fn⟩ := ctx
  simp only at hsp
  subst hsp
  intro frames
  induction frames with
  | nil =>
    intro st
    simp [collectLoop]
  | cons ev rest ih =>
    intro ⟨i, p, w, em⟩
    cases ev with
    | error e => simp [collectLoop]
    | frame f =>
      by_cases hd : p + ft < w
      · simp only [collectLoop, if_pos hd]
        exact ih ⟨i, p + ft, w, em⟩
      · by_cases hy : f.y = []
        · simp [collectLoop, if_neg hd, hy]
        · cases hconv : convertFrame
              { width := W, height := H, frameTime := ft, wantedFrameTime := wt, speed := 1,
                samp := sa, rawParams := rp, range := rg, matrix := mx, fns := fn } f with
          | error err =>
            have hconv2 : convertFrame
                { width := W, height := H, frameTime := ft, wantedFrameTime := wt, speed := 2,
                  samp := sa, rawParams := rp, range := rg, matrix := mx, fns := fn } f
                = .error err := hconv
            simp [collectLoop, if_neg hd, hy, hconv, hconv2]
          | ok u =>
            have hconv2 : convertFrame
                { width := W, height := H, frameTime := ft, wantedFrameTime := wt, speed := 2,
                  samp := sa, rawParams := rp, range := rg, matrix := mx, fns := fn } f
                = .ok u := hconv
            have hlen : ¬((repackOut W H).length ≠ W * H) := by
              simp [repackOut_length]
            simp only [collectLoop, if_neg hd, if_neg hy, hconv, hconv2, if_neg hlen]
            have := ih ⟨i + 1, p + ft, w + wt,
              em ++ [{ idx := i, pixels := repackOut W H, pts := p / 1, srcTime := p }]⟩
            simpa [div_one] using this

end Y4M

namespace Y4M

/-- C2: starting from the initial loop state, every emitted frame's
timestamp equals the source time accumulated before that frame (the
ghost `srcTime`, always a whole number of source frame durations)
divided by the speed factor; the emitted timestamps are pairwise
non-decreasing (given positive speed and positive source frame
duration); and running at speed 2 emits the same frames with exactly
half the timestamps produced at speed 1. -/
theorem timestamps_ok (ctx : CollectCtx) (frames : List FrameEvent)
    (hs : 0 < ctx.speed) (hf : 0 < ctx.frameTime) :
    (∀ e ∈ (collectLoop ctx frames { idx := 0, pts := 0, wanted := 0, emitted := [] }).1,
        e.pts = e.srcTime / ctx.speed ∧ ∃ k : ℕ, e.srcTime = (k : ℚ) * ctx.frameTime)
    ∧ List.Pairwise (fun a b => a.pts ≤ b.pts)
        (collectLoop ctx frames { idx := 0, pts := 0, wanted := 0, emitted := [] }).1
    ∧ (collectLoop { ctx with speed := 2 } frames
          { idx := 0, pts := 0, wanted := 0, emitted := [] }).1
        = ((collectLoop { ctx with speed := 1 } frames
              { idx := 0, pts := 0, wanted := 0, emitted := [] }).1).map
            (fun e => { e with pts := e.pts / 2 }) := by
  refine ⟨?_, ?_, ?_⟩
  · intro e he
    rcases collectLoop_srcTime_aux ctx frames _ 0 (by simp) e he with h | h
    · simp at h
    · exact h
  · exact collectLoop_pairwise_aux ctx hs hf.le frames _ (by simp) (by simp)
  · have h := collectLoop_speed_aux { ctx with speed := 1 } rfl frames ⟨0, 0, 0, []⟩
    exact congrArg Prod.fst h

/-- Witness for C2: the 60 fps → 20 fps context on a one-frame
stream. -/
theorem timestamps_ok_witness :
    ((0 : ℚ) < ctx0.speed ∧ (0 : ℚ) < ctx0.frameTime)
    ∧ ((∀ e ∈ (collectLoop ctx0 [.frame f1]
            { idx := 0, pts := 0, wanted := 0, emitted := [] }).1,
          e.pts = e.srcTime / ctx0.speed ∧ ∃ k : ℕ, e.srcTime = (k : ℚ) * ctx0.frameTime)
      ∧ List.Pairwise (fun a b => a.pts ≤ b.pts)
          (collectLoop ctx0 [.frame f1] { idx := 0, pts := 0, wanted := 0, emitted := [] }).1
      ∧ (collectLoop { ctx0 with speed := 2 } [.frame f1]
            { idx := 0, pts := 0, wanted := 0, emitted := [] }).1
          = ((collectLoop { ctx0 with speed := 1 } [.frame f1]
                { idx := 0, pts := 0, wanted := 0, emitted := [] }).1).map
              (fun e => { e with pts := e.pts / 2 })) :=
  ⟨⟨by norm_num [ctx0], by norm_num [ctx0]⟩,
    timestamps_ok ctx0 [.frame f1] (by norm_num [ctx0]) (by norm_num [ctx0])⟩

/-- C4: the capacity estimator returns `None` exactly for an unknown
file size; otherwise it is the saturating difference of file size and
header length, divided (truncating) by
`width * height * bytesPerSample * subsamplingFactor / 4 + 6`, whose
weight table matches the spec's per-family table; it consumes no frame
data (it is a function of the metadata and file size alone). -/
theorem total_frames_ok (d : DecoderInfo) (fs : Nat)
    (hov : d.width * d.height * d.bytesPerSample * sampFactor d.colorspace < USIZE) :
    total_frames none d = none
    ∧ total_frames (some fs) d
        = some ((fs - d.rawParams.length) /
            (d.width * d.height * d.bytesPerSample * sampFactor d.colorspace / 4 + 6))
    ∧ (∀ c : Colorspace, sampFactor c = specSubsamplingFactor c) := by
  refine ⟨rfl, ?_, fun c => by cases c <;> rfl⟩
  simp [total_frames, Nat.mod_eq_of_lt hov]

/-- Witness for C4: a 2×2 4:2:0 stream with a 3-byte header in a
1000-byte file. -/
theorem total_frames_ok_witness :
    ((2 : Nat) * 2 * 1 * sampFactor .C420 < USIZE)
    ∧ (total_frames none
          { width := 2, height := 2, bytesPerSample := 1, colorspace := .C420,
            rawParams := "HDR", fpsNum := 30, fpsDen := 1 } = none
      ∧ total_frames (some 1000)
          { width := 2, height := 2, bytesPerSample := 1, colorspace := .C420,
            rawParams := "HDR", fpsNum := 30, fpsDen := 1 }
          = some ((1000 - ("HDR" : String).length) / (2 * 2 * 1 * sampFactor .C420 / 4 + 6))
      ∧ (∀ c : Colorspace, sampFactor c = specSubsamplingFactor c)) :=
  ⟨by decide,
    total_frames_ok
      { width := 2, height := 2, bytesPerSample := 1, colorspace := .C420,
        rawParams := "HDR", fpsNum := 30, fpsDen := 1 } 1000 (by decide)⟩

/-- C5: subsampling-family resolution depends only on the declared
colorspace tag (same tag, same family-or-rejection verdict); each
higher-bit-depth variant of a supported tag makes `collect` fail —
with no frame emitted and independently of the frame stream — with a
message naming the rejected mode; and any tag outside the known set
makes `collect` fail with a message that includes the raw header
text. -/
theorem samp_resolution_ok :
    (∀ (c : Colorspace) (r₁ r₂ : String), (sampOf c r₁).toOption = (sampOf c r₂).toOption)
    ∧ (∀ (fns : ConvFns) (fps : Fps) (ics : Option YuvStandardMatrix) (w h bps fn fd : Nat)
        (raw : String) (frames : List FrameEvent),
        collect fns fps ics ⟨w, h, bps, .Cmono12, raw, fn, fd⟩ frames
          = ([], some "Y4M with Cmono12 is not supported yet")
        ∧ collect fns fps ics ⟨w, h, bps, .C420p10, raw, fn, fd⟩ frames
          = ([], some "Y4M with C420p10 is not supported yet")
        ∧ collect fns fps ics ⟨w, h, bps, .C420p12, raw, fn, fd⟩ frames
          = ([], some "Y4M with C420p12 is not supported yet")
        ∧ collect fns fps ics ⟨w, h, bps, .C422p10, raw, fn, fd⟩ frames
          = ([], some "Y4M with C422p10 is not supported yet")
        ∧ collect fns fps ics ⟨w, h, bps, .C422p12, raw, fn, fd⟩ frames
          = ([], some "Y4M with C422p12 is not supported yet")
        ∧ collect fns fps ics ⟨w, h, bps, .C444p10, raw, fn, fd⟩ frames
          = ([], some "Y4M with C444p10 is not supported yet")
        ∧ collect fns fps ics ⟨w, h, bps, .C444p12, raw, fn, fd⟩ frames
          = ([], some "Y4M with C444p12 is not supported yet")
        ∧ collect fns fps ics ⟨w, h, bps, .Cother, raw, fn, fd⟩ frames
          = ([], some ("Y4M uses unsupported color mode " ++ raw))) := by
  constructor
  · intro c r₁ r₂
    cases c <;> rfl
  · intro fns fps ics w h bps fn fd raw frames
    exact ⟨rfl, rfl, rfl, rfl, rfl, rfl, rfl, rfl⟩

/-- C6 counterexample: width 0 together with an unsupported colorspace
tag fails with the unsupported-mode message, not with the fixed
"Video too large" category — the colorspace match precedes the bounds
check. -/
theorem bounds_check_counterexample :
    collect okConv { fps := none, speed := 1 } none
        { width := 0, height := 1, bytesPerSample := 1, colorspace := .Cmono12,
          rawParams := "", fpsNum := 30, fpsDen := 1 } []
      = ([], some "Y4M with Cmono12 is not supported yet")
    ∧ ("Y4M with Cmono12 is not supported yet" : String) ≠ "Video too large" :=
  ⟨rfl, by decide⟩

/-- C6 (amended): for every input whose declared colorspace tag
resolves to a supported subsampling family, out-of-bounds dimensions
(width or height outside `[1, 65535]`) make `collect` fail with the
fixed "Video too large" category before any frame is read. -/
theorem bounds_check_amended (fns : ConvFns) (fps : Fps) (ics : Option YuvStandardMatrix)
    (d : DecoderInfo) (frames : List FrameEvent) (samp : Samp)
    (hsamp : sampOf d.colorspace d.rawParams = .ok samp)
    (hb : d.width = 0 ∨ 65535 < d.width ∨ d.height = 0 ∨ 65535 < d.height) :
    collect fns fps ics d frames = ([], some "Video too large") := by
  simp only [collect, hsamp, if_pos hb]

/-- Witness for the amended C6: a monochrome stream declaring
width 0. -/
theorem bounds_check_amended_witness :
    (sampOf Colorspace.Cmono "" = .ok Samp.Mono)
    ∧ ((0 : Nat) = 0 ∨ 65535 < (0 : Nat) ∨ (1 : Nat) = 0 ∨ 65535 < (1 : Nat))
    ∧ collect okConv { fps := none, speed := 1 } none
        { width := 0, height := 1, bytesPerSample := 1, colorspace := .Cmono,
          rawParams := "", fpsNum := 30, fpsDen := 1 } []
      = ([], some "Video too large") :=
  ⟨rfl, Or.inl rfl,
    bounds_check_amended okConv { fps := none, speed := 1 } none
      { width := 0, height := 1, bytesPerSample := 1, colorspace := .Cmono,
        rawParams := "", fpsNum := 30, fpsDen := 1 } [] .Mono rfl (Or.inl rfl)⟩

/-- C7 counterexample: with a 60 fps source retimed to the 20 fps
target, the second source frame is dropped by the retiming rule before
the luma check runs, so a successfully read frame with an empty luma
plane is skipped and `collect` succeeds — it does not fail on every
empty-luma frame. -/
theorem empty_luma_counterexample :
    collect okConv { fps := some 20, speed := 1 } none d7
        [.frame f1, .frame { y := [], u := [], v := [] }]
      = ([{ idx := 0, pixels := [[0, 0, 0, 0]], pts := 0, srcTime := 0 }], none)
    ∧ ({ y := [], u := [], v := [] } : FrameData).y = [] := by
  constructor
  · norm_num [collect, sampOf, mkCtx, d7, f1, collectLoop, convertFrame, okConv,
      repackOut, chunksExact, chunksExactGo, resolveRange, resolveMatrix,
      splitOnceAfter, DEFAULT_FPS, List.replicate]
  · rfl

/-- C7 (amended): for every successfully read source frame that is
retained by the drop rule and has an empty luma plane, the loop fails
immediately with the malformed-frame message including the raw header
text; the frames emitted before it remain emitted and no further frame
is emitted. -/
theorem empty_luma_amended (ctx : CollectCtx) (f : FrameData) (rest : List FrameEvent)
    (st : LoopState) (hkeep : ¬ st.pts + ctx.frameTime < st.wanted) (hy : f.y = []) :
    collectLoop ctx (.frame f :: rest) st = (st.emitted, some (bad_frame ctx.rawParams)) := by
  simp [collectLoop, if_neg hkeep, hy]

/-- Witness for the amended C7: an empty-luma frame pulled while the
drop rule does not fire. -/
theorem empty_luma_amended_witness :
    (¬ ((0 : ℚ) + ctx0.frameTime < 0))
    ∧ (({ y := [], u := [], v := [] } : FrameData).y = [])
    ∧ collectLoop ctx0 [.frame { y := [], u := [], v := [] }]
        { idx := 0, pts := 0, wanted := 0, emitted := [] }
      = ([], some (bad_frame ctx0.rawParams)) :=
  ⟨by norm_num [ctx0], rfl,
    empty_luma_amended ctx0 { y := [], u := [], v := [] } [] ⟨0, 0, 0, []⟩
      (by norm_num [ctx0]) rfl⟩

/-- C8: an explicit caller-supplied matrix always wins regardless of
dimensions; without one, the standard-definition matrix `Bt601` is
chosen exactly when `height ≤ 480` and `width ≤ 720`, and `Bt709`
otherwise; in particular 720×480 resolves to `Bt601` and 1920×1080 to
`Bt709`. -/
theorem matrix_resolution_ok :
    (∀ (m : YuvStandardMatrix) (w h : Nat), resolveMatrix (some m) w h = m)
    ∧ (∀ w h : Nat, resolveMatrix none w h = .Bt601 ∨ resolveMatrix none w h = .Bt709)
    ∧ (∀ w h : Nat, resolveMatrix none w h = .Bt601 ↔ (h ≤ 480 ∧ w ≤ 720))
    ∧ resolveMatrix none 720 480 = .Bt601
    ∧ resolveMatrix none 1920 1080 = .Bt709 := by
  refine ⟨fun m w h => rfl, fun w h => ?_, fun w h => ?_, by norm_num [resolveMatrix],
    by norm_num [resolveMatrix]⟩
  · by_cases hc : h ≤ 480 ∧ w ≤ 720
    · exact Or.inl (by simp [resolveMatrix, hc])
    · exact Or.inr (by simp [resolveMatrix, hc])
  · by_cases hc : h ≤ 480 ∧ w ≤ 720
    · simp [resolveMatrix, hc]
    · simp [resolveMatrix, hc]

/-- C9: full range is selected iff the raw header text has a
`COLORRANGE=` token whose first occurrence is followed by text starting
with `FULL`; in every other case — token absent, value `LIMITED`, or
any other value — limited range is selected. -/
theorem range_resolution_ok :
    (∀ raw : String, resolveRange raw = .Full ↔
      ∃ r : List Char, splitOnceAfter "COLORRANGE=".toList raw.toList = some r
        ∧ ("FULL".toList.isPrefixOf r : Bool) = true)
    ∧ resolveRange "W2 H2 F30:1 COLORRANGE=FULL" = .Full
    ∧ resolveRange "W2 H2 F30:1 COLORRANGE=LIMITED" = .Limited
    ∧ resolveRange "W2 H2 F30:1" = .Limited := by
  refine ⟨fun raw => ?_, by decide, by decide, by decide⟩
  cases hsp : splitOnceAfter "COLORRANGE=".toList raw.toList with
  | none =>
    unfold resolveRange
    rw [hsp]
    simp
  | some r =>
    by_cases hp : ("FULL".toList.isPrefixOf r : Bool) = true
    · unfold resolveRange
      rw [hsp]
      simp [hp]
    · unfold resolveRange
      rw [hsp]
      simp [hp]

end Y4M
